import Mathlib

/-!
Verification of the batch conversion pipeline of the Free_File_Transfer_Tool
repository (`src/server.js`).

The embedding models the `/api/convert` Express handler (per-file validation,
dispatch to format-specific extractors and encoders, partial-failure
aggregation, packaging decision, cleanup) and the `/download/:id/:name`
handler (path-containment check).  Third-party libraries (`pdf-parse`,
`mammoth`, `file-type`, UTF-8 decoding by `fs.readFile(p, 'utf8')`) are
black boxes: their per-file results are oracle fields of `FileData`, exactly
as the design document treats them ("extract plain text from bytes of
format F" is an external capability).  Filesystem state is modelled by an
explicit event log (writes, unlinks, renames).  POSIX path semantics are
assumed (`path.sep = "/"`), matching the deployment the code targets.

Machine integers do not occur on the modelled paths; byte values are `Nat`.
-/

namespace FFT

/-- Concatenation of the lists produced by `f` over `l`, in order (used in
place of `List.flatMap` / `Array#push` accumulation, for stable reduction). -/
def concatMapL (f : α → List β) : List α → List β
  | [] => []
  | a :: l => f a ++ concatMapL f l

/-! ### Node `path` machinery (POSIX semantics)

`path.extname`, `path.basename(p, ext)`, `path.resolve` and `path.join` as
used by `server.js`.  Paths are manipulated as `String`s; the segment
functions work on `List Char` / `List String` so that every definition is
executable and kernel-reducible. -/

/-- Drop trailing `'/'` characters (Node's `path` functions ignore trailing
separators when computing the basename). -/
def trimSlashes (l : List Char) : List Char :=
  (l.reverse.dropWhile (fun c => c = '/')).reverse

/-- The characters after the last `'/'` (the basename part). -/
def afterSlash (l : List Char) : List Char :=
  l.foldl (fun acc c => if c = '/' then [] else acc ++ [c]) []

/-- The basename characters of a path string: part after the last separator,
trailing separators ignored. -/
def basenameChars (l : List Char) : List Char :=
  afterSlash (trimSlashes l)

/-- The extension of a basename, per Node `path.extname` on the last path
portion: the suffix starting at the last `'.'`; empty when there is no dot,
when the only dot leads the basename (dotfiles), or for the special
basename `".."`. -/
def lastExt (b : List Char) : List Char :=
  if '.' ∈ b then
    if b = ['.', '.'] then []
    else
      let tail := b.reverse.takeWhile (fun c => c ≠ '.')
      let i := b.length - 1 - tail.length
      if i = 0 then [] else b.drop i
  else []

/-- `path.extname(s)` (POSIX). -/
def extnameOf (s : String) : String :=
  String.mk (lastExt (basenameChars s.data))

/-- ASCII lower-casing, modelling JS `String.prototype.toLowerCase` on the
ASCII range (the only range exercised by extensions and targets). -/
def lowerStr (s : String) : String :=
  String.mk (s.data.map Char.toLower)

/-- `path.extname(name).toLowerCase()` as computed at `server.js:210`. -/
def extLower (s : String) : String :=
  lowerStr (extnameOf s)

/-- `sfx.isSuffixOf s` on the character lists: models JS
`String.prototype.endsWith`. -/
def strEnds (sfx s : String) : Bool :=
  sfx.data.isSuffixOf s.data

/-- `path.basename(p, sfx)`: the basename, with `sfx` stripped when it is a
proper suffix of the basename (Node keeps the basename when it equals the
suffix). -/
def jsBasename (s : String) (sfx : String) : String :=
  let b := String.mk (basenameChars s.data)
  if strEnds sfx b && b != sfx then
    String.mk (b.data.take (b.data.length - sfx.data.length))
  else b

/-- `p.isPrefixOf q` on the character lists: models JS
`String.prototype.startsWith` (used by the download containment check). -/
def strStarts (p s : String) : Bool :=
  p.data.isPrefixOf s.data

/-- Split a string at `'/'` separators (auxiliary, accumulator holds the
current segment reversed). -/
def splitSlashAux : List Char → List Char → List (List Char)
  | [], cur => [cur.reverse]
  | c :: rest, cur =>
    if c = '/' then cur.reverse :: splitSlashAux rest []
    else splitSlashAux rest (c :: cur)

/-- Split a path string into its `'/'`-separated segments. -/
def splitSlash (s : String) : List String :=
  (splitSlashAux s.data []).map String.mk

/-- Resolve `"."`, `".."` and empty segments, as Node path normalization
does for an absolute path (`".."` at the root stays at the root). -/
def normSegs (segs : List String) : List String :=
  segs.foldl
    (fun acc seg =>
      if seg = "" || seg = "." then acc
      else if seg = ".." then acc.dropLast
      else acc ++ [seg])
    []

/-- Join normalized segments (without the leading separator). -/
def joinSegs : List String → String
  | [] => ""
  | [s] => s
  | s :: rest => s ++ "/" ++ joinSegs rest

/-- Render normalized absolute-path segments as a path string. -/
def renderAbs (segs : List String) : String :=
  if segs = [] then "/" else "/" ++ joinSegs segs

/-- `path.resolve(base)` for an absolute `base` (computes `safeBase` at
`server.js:331`). -/
def nodeResolve1 (base : String) : String :=
  renderAbs (normSegs (splitSlash base))

/-- `path.resolve(base, rel)` for an absolute `base`: an absolute `rel`
wins, otherwise `rel` is resolved against `base` (computes `candidate` at
`server.js:332`). -/
def nodeResolve2 (base rel : String) : String :=
  if strStarts "/" rel then renderAbs (normSegs (splitSlash rel))
  else renderAbs (normSegs (splitSlash (base ++ "/" ++ rel)))

/-! ### JS string helpers used by the handler -/

/-- JS whitespace recognized by `String.prototype.trim` (ASCII whitespace,
NBSP, BOM, and the line separators; more exotic Unicode `Zs` spaces do not
occur in the modelled inputs). -/
def jsWS (c : Char) : Bool :=
  [9, 10, 11, 12, 13, 32, 160, 0x2028, 0x2029, 0xFEFF].contains c.toNat

/-- JS `String.prototype.trim`. -/
def jsTrim (s : String) : String :=
  String.mk (((s.data.dropWhile jsWS).reverse.dropWhile jsWS).reverse)

/-- Upper-case hexadecimal digit for `n < 16`. -/
def hexDigit (n : Nat) : Char :=
  if n < 10 then Char.ofNat (48 + n) else Char.ofNat (55 + n)

/-- UTF-8 bytes of a code point. -/
def utf8Bytes (c : Char) : List Nat :=
  let n := c.toNat
  if n < 0x80 then [n]
  else if n < 0x800 then [0xC0 + n / 64, 0x80 + n % 64]
  else if n < 0x10000 then [0xE0 + n / 4096, 0x80 + (n / 64) % 64, 0x80 + n % 64]
  else [0xF0 + n / 262144, 0x80 + (n / 4096) % 64, 0x80 + (n / 64) % 64, 0x80 + n % 64]

/-- Characters that JS `encodeURIComponent` leaves unescaped. -/
def isUnreservedURI (c : Char) : Bool :=
  c.isAlphanum || [45, 95, 46, 33, 126, 42, 39, 40, 41].contains c.toNat

/-- JS `encodeURIComponent`: unreserved characters kept, all others
percent-encoded byte-wise over their UTF-8 encoding. -/
def encodeURIComponent (s : String) : String :=
  String.mk (concatMapL
    (fun c =>
      if isUnreservedURI c then [c]
      else concatMapL (fun b => ['%', hexDigit (b / 16), hexDigit (b % 16)]) (utf8Bytes c))
    s.data)

/-! ### Validation helpers of `server.js` -/

/-- The upload allow-list (`allowedExt`, `server.js:74`). -/
def allowedExtL : List String :=
  [".pdf", ".docx", ".txt", ".png", ".jpg", ".jpeg", ".bmp", ".tif", ".tiff"]

/-- Multer `fileFilter` (`server.js:79`): accept iff the lower-cased
extension is allow-listed.  A file whose extension fails this check never
enters a batch. -/
def uploadAccepts (name : String) : Bool :=
  allowedExtL.contains (extLower name)

/-- `isImageExt` (`server.js:75`). -/
def isImageExt (ext : String) : Bool :=
  [".png", ".jpg", ".jpeg", ".bmp", ".tif", ".tiff"].contains ext

/-- `looksLikeText` (`server.js:176`): no null byte in the content. -/
def looksLikeText (bytes : List Nat) : Bool :=
  !(bytes.contains 0)

/-- `isPdfFile` (`server.js:118`): the first four bytes (zero-padded, as
`Buffer.alloc(4)` is) must be the ASCII signature `%PDF`. -/
def isPdfFile (bytes : List Nat) : Bool :=
  bytes.take 4 ++ List.replicate (4 - (bytes.take 4).length) 0 == [37, 80, 68, 70]

def zipMime : String := "application/zip"

def ooxmlMime : String :=
  "application/vnd.openxmlformats-officedocument.wordprocessingml.document"

/-- The `.docx` pre-check condition (`server.js:220`): reject only when a
MIME type was detected and it is neither ZIP nor OOXML word processing
(`m && m !== ... && m !== ...`; a `null` detection passes). -/
def mimeRejected (m : Option String) : Bool :=
  match m with
  | none => false
  | some s => !(s == zipMime) && !(s == ooxmlMime)

/-! ### Data model of one uploaded file -/

/-- One uploaded file together with the oracle results of the black-box
libraries on it:
* `bytes` — raw content (drives `looksLikeText` / `isPdfFile`);
* `mime` — result of `detectMime` (`file-type`), `none` for `null`;
* `pdfText` — `data.text` of `pdf-parse` on this file (`server.js:102`
  trims it before use);
* `docxText` — the raw text `mammoth.extractRawText` yields
  (`server.js:108` trims it before use);
* `utf8` — the text `fsp.readFile(path, 'utf8')` yields. -/
structure FileData where
  name : String
  bytes : List Nat
  mime : Option String
  pdfText : String
  docxText : String
  utf8 : String
  deriving DecidableEq, Repr

/-- Bytes written to an output file: a UTF-8 text write
(`fsp.writeFile(p, text, 'utf8')`) or the buffer `txtToDocxBuffer(text)`
produced by the `docx` library from `text`. -/
inductive Written where
  | txt (s : String)
  | docxBuf (t : String)
  deriving DecidableEq, Repr

/-- One element pushed onto `outputs` inside the per-file loop:
`{err}` or `{path, name}` (the latter is pushed right after the
corresponding `writeFile`, so an `ok` entry also records the write). -/
inductive Entry where
  | err (msg : String)
  | ok (path : String) (outName : String) (w : Written)
  deriving DecidableEq, Repr

/-- `(req.body?.target || "txt").toLowerCase()` (`server.js:203`): an
absent/empty target is falsy and defaults to `"txt"`. -/
def normTarget (raw : String) : String :=
  if raw = "" then "txt" else lowerStr raw

/-- The body of the per-file loop (`server.js:209-282`) with `ext` and
`base` already computed.  Mirrors the source exactly, including the image
branches of both targets, which push the OCR failure but do not `continue`,
so control falls through to the `writeFile`/push of an output built from
the still-empty `text`. -/
def convertOne (target outDir ext base : String) (f : FileData) : List Entry :=
  if ext == ".txt" && !(looksLikeText f.bytes) then
    [.err ("Not a text file: " ++ f.name)]
  else if ext == ".docx" && mimeRejected f.mime then
    [.err ("Not a DOCX file: " ++ f.name)]
  else if target == "txt" then
    if ext == ".pdf" then
      if !(isPdfFile f.bytes) then
        [.err ("Invalid PDF file: " ++ f.name)]
      else if jsTrim f.pdfText == "" then
        [.err ("No text extracted (likely scanned PDF): " ++ f.name)]
      else
        [.ok (outDir ++ "/" ++ base ++ ".txt") (base ++ ".txt") (.txt (jsTrim f.pdfText))]
    else if ext == ".docx" then
      [.ok (outDir ++ "/" ++ base ++ ".txt") (base ++ ".txt") (.txt (jsTrim f.docxText))]
    else if ext == ".txt" then
      [.ok (outDir ++ "/" ++ base ++ ".txt") (base ++ ".txt") (.txt f.utf8)]
    else if isImageExt ext then
      [.err ("OCR not enabled for images: " ++ f.name),
       .ok (outDir ++ "/" ++ base ++ ".txt") (base ++ ".txt") (.txt "")]
    else
      [.err ("Unsupported source for TXT: " ++ f.name)]
  else if target == "docx" then
    if ext == ".pdf" then
      if !(isPdfFile f.bytes) then
        [.err ("Invalid PDF file: " ++ f.name)]
      else if jsTrim f.pdfText == "" then
        [.err ("No text extracted (likely scanned PDF): " ++ f.name)]
      else
        [.ok (outDir ++ "/" ++ base ++ ".docx") (base ++ ".docx") (.docxBuf (jsTrim f.pdfText))]
    else if ext == ".docx" then
      [.ok (outDir ++ "/" ++ base ++ ".docx") (base ++ ".docx") (.docxBuf (jsTrim f.docxText))]
    else if ext == ".txt" then
      [.ok (outDir ++ "/" ++ base ++ ".docx") (base ++ ".docx") (.docxBuf f.utf8)]
    else if isImageExt ext then
      [.err ("OCR not enabled for images: " ++ f.name),
       .ok (outDir ++ "/" ++ base ++ ".docx") (base ++ ".docx") (.docxBuf "")]
    else
      [.err ("Unsupported source for DOCX: " ++ f.name)]
  else
    [.err ("Unsupported target: " ++ target)]

/-- One iteration of the loop: computes `ext` and `base` as
`server.js:210-211` does, then runs the body. -/
def processFile (target outDir : String) (f : FileData) : List Entry :=
  convertOne target outDir (extLower f.name) (jsBasename f.name (extLower f.name)) f

/-- `o.path` presence test used by `outputs.filter(o => o.path)`. -/
def okOf : Entry → Option (String × String × Written)
  | .ok p n w => some (p, n, w)
  | .err _ => none

/-- `outputs.filter(o => o.path)` (`server.js:285`), keeping path, name and
written content. -/
def okList (l : List Entry) : List (String × String × Written) :=
  l.filterMap okOf

/-- `o.err` presence test used by `outputs.find(o => o.err)`. -/
def isErrE : Entry → Bool
  | .err _ => true
  | .ok _ _ _ => false

/-- `outputs.find(o => o.err)?.err || 'Conversion failed'`
(`server.js:287`); error messages produced by the loop are never empty, so
JS falsiness coincides with absence. -/
def firstErrMsg (l : List Entry) : String :=
  match l.find? isErrE with
  | some (.err m) => m
  | _ => "Conversion failed"

/-- The content on disk at path `p` after the loop ran: the last write to
`p` (later `writeFile`s to the same path overwrite earlier ones; the
archiver streams file content only at `finalize` time,
`server.js:305-309`). -/
def fileAt (outputs : List Entry) (p : String) : Option Written :=
  (outputs.filterMap
    (fun e =>
      match e with
      | .ok q _ w => if q = p then some w else none
      | .err _ => none)).getLast?

/-- An uploaded file as the batch handler sees it: the `FileData` oracle
plus its multer temp path and a fault flag — `throws = true` models the
black-box extraction/IO of this file raising, which aborts the `try` body
(`server.js:320-322`). -/
structure FileDataF extends FileData where
  uploadPath : String
  throws : Bool
  deriving DecidableEq, Repr

/-- Filesystem effects of one request. -/
inductive Ev where
  | fileWrite (p : String) (w : Written)
  | unlink (p : String)
  | renameFile (src dst : String)
  deriving DecidableEq, Repr

/-- Result body sent to the client. -/
inductive RespBody where
  | noFile
  | failed (msg : String)
  | singleOk (mapped url : String)
  | zipOk (zipName : String) (entries : List (String × Option Written)) (mapped url : String)
  deriving DecidableEq, Repr

/-- Request-independent context: the fixed output directory, the `nanoid`
drawn for the download mapping, and `Date.now()` at zip-name time. -/
structure Ctx where
  outDir : String
  downloadId : String
  now : Nat
  deriving DecidableEq, Repr

/-- The outputs the loop accumulates over the whole batch (no file
throwing). -/
def collectOutputs (target outDir : String) : List FileDataF → List Entry
  | [] => []
  | f :: rest => processFile target outDir f.toFileData ++ collectOutputs target outDir rest

/-- The `try` body's loop with faults: stops at the first file whose
black-box processing throws, carrying the entries accumulated so far. -/
def tryOutputs (target outDir : String) : List FileDataF → Except (List Entry) (List Entry)
  | [] => .ok []
  | f :: rest =>
    if f.throws then .error []
    else
      match tryOutputs target outDir rest with
      | .error l => .error (processFile target outDir f.toFileData ++ l)
      | .ok l => .ok (processFile target outDir f.toFileData ++ l)

/-- The `writeFile` events corresponding to the `ok` entries of the loop. -/
def writeEvsOf (l : List Entry) : List Ev :=
  l.filterMap
    (fun e =>
      match e with
      | .ok q _ w => some (.fileWrite q w)
      | .err _ => none)

/-- The unconditional `finally` block (`server.js:323-326`): best-effort
unlink of every uploaded source file. -/
def finallyEvs (files : List FileDataF) : List Ev :=
  files.map (fun f => .unlink f.uploadPath)

/-- The `/api/convert` handler (`server.js:202-327`): empty-batch check,
per-file loop, packaging decision (`0` / `1` / many successes), the `catch`
mapping any thrown fault to a generic 500, and the `finally` cleanup.
Returns the HTTP response (status, body) and the filesystem event log. -/
def convertHandler (ctx : Ctx) (raw : String) (files : List FileDataF) :
    (Nat × RespBody) × List Ev :=
  if files.isEmpty then
    ((400, .noFile), [])
  else
    match tryOutputs (normTarget raw) ctx.outDir files with
    | .error l =>
      ((500, .failed "Conversion failed"), writeEvsOf l ++ finallyEvs files)
    | .ok outputs =>
      match okList outputs with
      | [] =>
        ((422, .failed (firstErrMsg outputs)), writeEvsOf outputs ++ finallyEvs files)
      | [o] =>
        let mapped := ctx.outDir ++ "/" ++ (ctx.downloadId ++ "-" ++ o.2.1)
        ((200, .singleOk mapped
            ("/download/" ++ ctx.downloadId ++ "/" ++ encodeURIComponent o.2.1)),
         writeEvsOf outputs ++ [.renameFile o.1 mapped] ++ finallyEvs files)
      | o1 :: o2 :: more =>
        let oks := o1 :: o2 :: more
        let zipName := "converted-" ++ toString ctx.now ++ ".zip"
        let zipTemp := ctx.outDir ++ "/" ++ zipName
        let mapped := ctx.outDir ++ "/" ++ (ctx.downloadId ++ "-" ++ zipName)
        ((200, .zipOk zipName (oks.map (fun o => (o.2.1, fileAt outputs o.1))) mapped
            ("/download/" ++ ctx.downloadId ++ "/" ++ encodeURIComponent zipName)),
         writeEvsOf outputs ++ oks.map (fun o => Ev.unlink o.1)
           ++ [.renameFile zipTemp mapped] ++ finallyEvs files)

/-- Result of `/download/:id/:name`. -/
inductive DlResult where
  | badPath
  | notFound
  | fileDownload (path name : String)
  deriving DecidableEq, Repr

/-- The containment test of `server.js:333`:
`candidate.startsWith(safeBase + path.sep) || candidate === safeBase`. -/
def insideOutDir (safeBase candidate : String) : Bool :=
  strStarts (safeBase ++ "/") candidate || candidate == safeBase

/-- The `/download/:id/:name` handler (`server.js:329-341`), parametrized
by the filesystem existence oracle consulted by `fs.existsSync`. -/
def downloadHandler (outDir : String) (fileExists : String → Bool)
    (id name : String) : DlResult :=
  let safeBase := nodeResolve1 outDir
  let candidate := nodeResolve2 outDir (id ++ "-" ++ name)
  if insideOutDir safeBase candidate then
    if fileExists candidate then .fileDownload candidate name
    else .notFound
  else .badPath

/-! ## Supporting lemmas -/

theorem data_append (x : String) (m : List Char) :
    (x ++ String.mk m).data = x.data ++ m := by
  cases x
  rfl

theorem data_append2 (x y : String) : (x ++ y).data = x.data ++ y.data := by
  cases x
  cases y
  rfl

theorem afterSlash_step (m : List Char) (hm : '/' ∉ m) (acc : List Char) :
    m.foldl (fun acc c => if c = '/' then [] else acc ++ [c]) acc = acc ++ m := by
  induction m generalizing acc with
  | nil => simp
  | cons c rest ih =>
    have hc : c ≠ '/' := fun h => hm (h ▸ List.mem_cons_self c rest)
    simp only [List.foldl_cons, if_neg hc]
    rw [ih (fun h => hm (List.mem_cons_of_mem _ h))]
    simp

theorem afterSlash_append (l m : List Char) (hm : '/' ∉ m) :
    afterSlash (l ++ m) = afterSlash l ++ m := by
  unfold afterSlash
  rw [List.foldl_append]
  exact afterSlash_step m hm _

theorem trimSlashes_append (l m : List Char) (hm : '/' ∉ m) (hne : m ≠ []) :
    trimSlashes (l ++ m) = l ++ m := by
  unfold trimSlashes
  rw [List.reverse_append]
  cases hr : m.reverse with
  | nil => exact absurd (by simpa using congrArg List.reverse hr) hne
  | cons c t =>
    have hc : c ≠ '/' := by
      have : c ∈ m := by
        have : c ∈ m.reverse := by rw [hr]; exact List.mem_cons_self c t
        simpa using this
      exact fun h => hm (h ▸ this)
    rw [List.cons_append, List.dropWhile_cons, if_neg (by simpa using hc)]
    rw [← List.cons_append, ← hr, List.reverse_append, List.reverse_reverse,
      List.reverse_reverse]

theorem basenameChars_append (x : String) (m : List Char) (hm : '/' ∉ m) (hne : m ≠ []) :
    basenameChars (x.data ++ m) = afterSlash x.data ++ m := by
  unfold basenameChars
  rw [trimSlashes_append x.data m hm hne, afterSlash_append x.data m hm]

theorem takeWhile_no_dot (m k : List Char) (hm : ∀ c ∈ m, c ≠ '.') :
    (m ++ '.' :: k).takeWhile (fun c => c ≠ '.') = m := by
  induction m with
  | nil => simp [List.takeWhile_cons]
  | cons a t ih =>
    have ha : a ≠ '.' := hm a (List.mem_cons_self a t)
    rw [List.cons_append, List.takeWhile_cons, if_pos (by simpa using ha)]
    rw [ih (fun c hc => hm c (List.mem_cons_of_mem _ hc))]

/-- The extension of a basename ending in a dot-led, dot-free suffix: the
suffix itself, unless the suffix is the whole basename (Node treats a sole
leading dot as a dotfile marker, not an extension start). -/
theorem lastExt_dot_suffix (c r : List Char) (hne : r ≠ []) (hd : '.' ∉ r) :
    lastExt (c ++ '.' :: r) = if c = [] then [] else '.' :: r := by
  have hdot : '.' ∈ c ++ '.' :: r := List.mem_append_right c (List.mem_cons_self _ r)
  have hne2 : c ++ '.' :: r ≠ ['.', '.'] := by
    intro h
    cases hr : r with
    | nil => exact hne hr
    | cons a t =>
      have ha : a ∈ c ++ '.' :: r := by
        rw [hr]
        exact List.mem_append_right c (List.mem_cons_of_mem _ (List.mem_cons_self a t))
      rw [h] at ha
      have ha2 : a = '.' := by simpa using ha
      exact hd (by rw [hr]; exact ha2 ▸ List.mem_cons_self a t)
  unfold lastExt
  rw [if_pos hdot, if_neg hne2]
  have hrev : (c ++ '.' :: r).reverse = r.reverse ++ '.' :: c.reverse := by
    rw [List.reverse_append, List.reverse_cons]
    simp
  have htw : ((c ++ '.' :: r).reverse).takeWhile (fun x => x ≠ '.') = r.reverse := by
    rw [hrev]
    exact takeWhile_no_dot r.reverse c.reverse
      (fun x hx => fun h => hd (h ▸ (List.mem_reverse.mp hx)))
  simp only [htw]
  have hlen : (c ++ '.' :: r).length - 1 - r.reverse.length = c.length := by
    simp [List.length_append]
  rw [hlen]
  by_cases hc : c = []
  · subst hc
    simp
  · rw [if_neg (by simpa using fun h => hc (List.length_eq_zero.mp h))]
    rw [if_neg hc]
    rw [List.drop_left]

theorem mapLower_fixed (l : List Char) (h : ∀ c ∈ l, c.toLower = c) :
    l.map Char.toLower = l := by
  induction l with
  | nil => rfl
  | cons a t ih =>
    rw [List.map_cons, h a (List.mem_cons_self a t),
      ih (fun c hc => h c (List.mem_cons_of_mem _ hc))]

/-- `extLower` of a name ending in a lower-case extension `'.' :: r`: the
extension itself, unless the basename is exactly that extension (Node
dotfile rule), in which case it is empty. -/
theorem extLower_suffix (x : String) (r : List Char) (hne : r ≠ []) (hd : '.' ∉ r)
    (hs : '/' ∉ r) (hlow : ∀ c ∈ r, c.toLower = c) :
    extLower (x ++ String.mk ('.' :: r)) =
      if afterSlash x.data = [] then "" else String.mk ('.' :: r) := by
  have hm : '/' ∉ ('.' :: r) := by
    intro h
    rcases List.mem_cons.mp h with h | h
    · exact absurd h (by decide)
    · exact hs h
  unfold extLower extnameOf
  rw [data_append, basenameChars_append x ('.' :: r) hm (by simp)]
  rw [lastExt_dot_suffix (afterSlash x.data) r hne hd]
  by_cases hc : afterSlash x.data = []
  · rw [if_pos hc, if_pos hc]
    rfl
  · rw [if_neg hc, if_neg hc]
    unfold lowerStr
    have hdata : (String.mk ('.' :: r)).data = '.' :: r := rfl
    rw [hdata, List.map_cons]
    rw [mapLower_fixed r hlow]
    rfl

theorem extLower_of_txt (x : String) :
    extLower (x ++ ".txt") = if afterSlash x.data = [] then "" else ".txt" :=
  extLower_suffix x ['t', 'x', 't'] (by decide) (by decide) (by decide) (by decide)

theorem extLower_of_pdf (x : String) :
    extLower (x ++ ".pdf") = if afterSlash x.data = [] then "" else ".pdf" :=
  extLower_suffix x ['p', 'd', 'f'] (by decide) (by decide) (by decide) (by decide)

theorem extLower_of_docx (x : String) :
    extLower (x ++ ".docx") = if afterSlash x.data = [] then "" else ".docx" :=
  extLower_suffix x ['d', 'o', 'c', 'x'] (by decide) (by decide) (by decide) (by decide)

/-- A name ending in `".txt"` that passed the multer allow-list has
classified extension `".txt"` (the dotfile case classifies as `""`, which
the allow-list rejects, so such a file never enters a batch). -/
theorem extLower_txt_accepted (x : String) (hacc : uploadAccepts (x ++ ".txt") = true) :
    extLower (x ++ ".txt") = ".txt" := by
  have h := extLower_of_txt x
  by_cases hc : afterSlash x.data = []
  · rw [if_pos hc] at h
    unfold uploadAccepts at hacc
    rw [h] at hacc
    exact absurd hacc (by decide)
  · rw [if_neg hc] at h
    exact h

theorem extLower_pdf_accepted (x : String) (hacc : uploadAccepts (x ++ ".pdf") = true) :
    extLower (x ++ ".pdf") = ".pdf" := by
  have h := extLower_of_pdf x
  by_cases hc : afterSlash x.data = []
  · rw [if_pos hc] at h
    unfold uploadAccepts at hacc
    rw [h] at hacc
    exact absurd hacc (by decide)
  · rw [if_neg hc] at h
    exact h

theorem extLower_docx_accepted (x : String) (hacc : uploadAccepts (x ++ ".docx") = true) :
    extLower (x ++ ".docx") = ".docx" := by
  have h := extLower_of_docx x
  by_cases hc : afterSlash x.data = []
  · rw [if_pos hc] at h
    unfold uploadAccepts at hacc
    rw [h] at hacc
    exact absurd hacc (by decide)
  · rw [if_neg hc] at h
    exact h

/-- Inversion: a loop iteration that produced exactly one success produced
it in a `txt`- or `docx`-target branch, and its output name and path are
the base name with the target extension under the output directory. -/
theorem convertOne_single_ok {t od e b p n : String} {f : FileData} {w : Written}
    (h : convertOne t od e b f = [.ok p n w]) :
    (t = "txt" ∧ n = b ++ ".txt" ∧ p = od ++ "/" ++ b ++ ".txt") ∨
    (t = "docx" ∧ n = b ++ ".docx" ∧ p = od ++ "/" ++ b ++ ".docx") := by
  unfold convertOne at h
  split_ifs at h <;> simp_all

/-- When no file of the batch throws, the `try` body completes with the
collected outputs. -/
theorem tryOutputs_ok (t od : String) (files : List FileDataF)
    (h : ∀ f ∈ files, f.throws = false) :
    tryOutputs t od files = .ok (collectOutputs t od files) := by
  induction files with
  | nil => rfl
  | cons f rest ih =>
    unfold tryOutputs
    rw [h f (List.mem_cons_self f rest)]
    simp only [Bool.false_eq_true, if_false]
    rw [ih (fun g hg => h g (List.mem_cons_of_mem _ hg))]
    rfl

theorem okList_append (l m : List Entry) :
    okList (l ++ m) = okList l ++ okList m := by
  unfold okList
  exact List.filterMap_append l m okOf

theorem okList_all_err (t od : String) (l : List FileDataF)
    (h : ∀ f ∈ l, ∃ m, processFile t od f.toFileData = [.err m]) :
    okList (collectOutputs t od l) = [] := by
  induction l with
  | nil => rfl
  | cons f rest ih =>
    obtain ⟨m, hm⟩ := h f (List.mem_cons_self f rest)
    unfold collectOutputs
    rw [okList_append, hm, ih (fun g hg => h g (List.mem_cons_of_mem _ hg))]
    rfl

/-- Two string concatenations whose left parts start with different
characters are different strings. -/
theorem append_head_ne (a b s t : String) (c d : Char) (cs ds : List Char)
    (ha : a.data = c :: cs) (hb : b.data = d :: ds) (hcd : c ≠ d) : a ++ s ≠ b ++ t := by
  intro h
  have h2 := congrArg String.data h
  rw [data_append2, data_append2, ha, hb] at h2
  simp only [List.cons_append] at h2
  exact hcd (List.cons_eq_cons.mp h2).1

/-! ## Claims -/

/-- C1: the claim states that an uploaded file with an image extension,
under target `txt` or `docx`, never yields a Success outcome and is
recorded only with the "OCR not enabled for images" failure.  The code
violates this: the image branches (`server.js:244-245`, `269-270`) push the
failure but, unlike every sibling error branch, do not `continue`, so
control falls through and also writes an output built from the still-empty
`text` and pushes a success entry.  This theorem evaluates the loop body on
a `pic.png` upload under both targets, exhibiting the extra success entry
(an empty `pic.txt` / `pic.docx`). -/
theorem spec_C1_image_fallthrough :
    processFile "txt" "/srv/converted" ⟨"pic.png", [137, 80], some "image/png", "", "", ""⟩ =
      [.err "OCR not enabled for images: pic.png",
       .ok "/srv/converted/pic.txt" "pic.txt" (.txt "")] ∧
    processFile "docx" "/srv/converted" ⟨"pic.png", [137, 80], some "image/png", "", "", ""⟩ =
      [.err "OCR not enabled for images: pic.png",
       .ok "/srv/converted/pic.docx" "pic.docx" (.docxBuf "")] :=
  ⟨by decide, by decide⟩

/-- C2: a non-empty batch in which every file records a failure (zero
successes) fails as a whole with status 422, and the reported message is
exactly the recorded failure reason of the first file in input order — not
an aggregate and not a generic message. -/
theorem spec_C2_first_failure_422 (ctx : Ctx) (raw : String) (f0 : FileDataF)
    (rest : List FileDataF) (m0 : String)
    (h0 : processFile (normTarget raw) ctx.outDir f0.toFileData = [.err m0])
    (hrest : ∀ f ∈ rest, ∃ m, processFile (normTarget raw) ctx.outDir f.toFileData = [.err m])
    (hnt : ∀ f ∈ (f0 :: rest), f.throws = false) :
    (convertHandler ctx raw (f0 :: rest)).1 = (422, .failed m0) := by
  have htry := tryOutputs_ok (normTarget raw) ctx.outDir (f0 :: rest) hnt
  have hout : collectOutputs (normTarget raw) ctx.outDir (f0 :: rest) =
      Entry.err m0 :: collectOutputs (normTarget raw) ctx.outDir rest := by
    simp only [collectOutputs]
    rw [h0]
    rfl
  have hokrest : okList (collectOutputs (normTarget raw) ctx.outDir rest) = [] :=
    okList_all_err _ _ rest hrest
  have hok : okList (collectOutputs (normTarget raw) ctx.outDir (f0 :: rest)) = [] := by
    rw [hout]
    unfold okList at hokrest ⊢
    rw [List.filterMap_cons]
    simpa [okOf] using hokrest
  have hfirst : firstErrMsg (collectOutputs (normTarget raw) ctx.outDir (f0 :: rest)) = m0 := by
    rw [hout]
    unfold firstErrMsg
    rw [List.find?_cons_of_pos _ (by rfl)]
  unfold convertHandler
  rw [if_neg (by simp)]
  rw [htry]
  simp only [hok, hfirst]

/-- C2 witness: a one-file batch (a `.txt` upload containing a null byte)
fails with 422 and that file's recorded reason. -/
theorem spec_C2_first_failure_422_witness :
    processFile (normTarget "txt") "/srv/converted"
        (FileDataF.mk ⟨"a.txt", [0, 105], none, "", "", ""⟩ "/srv/uploads/u1" false).toFileData =
      [.err "Not a text file: a.txt"] ∧
    (convertHandler ⟨"/srv/converted", "d1", 111⟩ "txt"
        [⟨⟨"a.txt", [0, 105], none, "", "", ""⟩, "/srv/uploads/u1", false⟩]).1 =
      (422, .failed "Not a text file: a.txt") :=
  ⟨by decide,
   spec_C2_first_failure_422 ⟨"/srv/converted", "d1", 111⟩ "txt"
     ⟨⟨"a.txt", [0, 105], none, "", "", ""⟩, "/srv/uploads/u1", false⟩ []
     "Not a text file: a.txt" (by decide) (by simp) (by decide)⟩

/-- C3: a batch with exactly one successful conversion produces no archive:
the handler answers with the `singleOk` body (never `zipOk`), the single
output file is renamed to `{downloadId}-{name}` inside the output
directory, and the returned URL references that artifact directly. -/
theorem spec_C3_single_success_direct (ctx : Ctx) (raw : String) (files : List FileDataF)
    (p n : String) (w : Written)
    (hnt : ∀ f ∈ files, f.throws = false)
    (h : okList (collectOutputs (normTarget raw) ctx.outDir files) = [(p, n, w)]) :
    (convertHandler ctx raw files).1 =
      (200, .singleOk (ctx.outDir ++ "/" ++ (ctx.downloadId ++ "-" ++ n))
        ("/download/" ++ ctx.downloadId ++ "/" ++ encodeURIComponent n)) ∧
    Ev.renameFile p (ctx.outDir ++ "/" ++ (ctx.downloadId ++ "-" ++ n)) ∈
      (convertHandler ctx raw files).2 := by
  have hne : files ≠ [] := by
    intro hfe
    rw [hfe] at h
    simp [collectOutputs, okList] at h
  have htry := tryOutputs_ok (normTarget raw) ctx.outDir files hnt
  unfold convertHandler
  rw [if_neg (by simpa [List.isEmpty_iff] using hne)]
  rw [htry]
  simp only [h]
  exact ⟨trivial, by simp⟩

/-- C3 witness: a one-file batch with one success is promoted directly. -/
theorem spec_C3_single_success_direct_witness :
    okList (collectOutputs (normTarget "txt") "/srv/converted"
        [⟨⟨"a.txt", [104, 105], none, "", "", "hi"⟩, "/srv/uploads/u1", false⟩]) =
      [("/srv/converted/a.txt", "a.txt", .txt "hi")] ∧
    (convertHandler ⟨"/srv/converted", "d1", 111⟩ "txt"
        [⟨⟨"a.txt", [104, 105], none, "", "", "hi"⟩, "/srv/uploads/u1", false⟩]).1 =
      (200, .singleOk "/srv/converted/d1-a.txt" "/download/d1/a.txt") ∧
    Ev.renameFile "/srv/converted/a.txt" "/srv/converted/d1-a.txt" ∈
      (convertHandler ⟨"/srv/converted", "d1", 111⟩ "txt"
        [⟨⟨"a.txt", [104, 105], none, "", "", "hi"⟩, "/srv/uploads/u1", false⟩]).2 := by
  have h := spec_C3_single_success_direct ⟨"/srv/converted", "d1", 111⟩ "txt"
    [⟨⟨"a.txt", [104, 105], none, "", "", "hi"⟩, "/srv/uploads/u1", false⟩]
    "/srv/converted/a.txt" "a.txt" (.txt "hi") (by decide) (by decide)
  exact ⟨by decide, h.1, h.2⟩

/-- C4: a download request whose resolved candidate path
(`path.resolve(OUT_DIR, id ++ "-" ++ name)`) falls outside the output
directory is rejected with the bad-path response for every filesystem
existence oracle — i.e. before and independently of any file-existence
check or file access. -/
theorem spec_C4_traversal_rejected (outDir id name : String)
    (hout : insideOutDir (nodeResolve1 outDir) (nodeResolve2 outDir (id ++ "-" ++ name)) = false)
    (fileExists : String → Bool) :
    downloadHandler outDir fileExists id name = .badPath := by
  simp [downloadHandler, hout]

/-- C4 witness: a display name with parent-directory segments escapes the
output directory and is rejected even though the oracle reports that a file
exists at the escaped location. -/
theorem spec_C4_traversal_rejected_witness :
    insideOutDir (nodeResolve1 "/srv/app/converted")
        (nodeResolve2 "/srv/app/converted" ("abc" ++ "-" ++ "../../../etc/passwd")) = false ∧
    downloadHandler "/srv/app/converted" (fun _ => true) "abc" "../../../etc/passwd" = .badPath :=
  ⟨by decide,
   spec_C4_traversal_rejected "/srv/app/converted" "abc" "../../../etc/passwd"
     (by decide) (fun _ => true)⟩

/-- C5: an uploaded file whose name ends in `.txt` (and which passed the
upload allow-list, as every uploaded file did) and whose bytes contain a
null byte records exactly the failure "Not a text file: name", for every
value of the target parameter (the pre-check runs before the target
dispatch), with no extraction or encoding performed (the oracle fields are
never consulted and no success entry is produced). -/
theorem spec_C5_null_byte_txt_rejected (f : FileData) (target outDir x : String)
    (hend : f.name = x ++ ".txt") (hacc : uploadAccepts f.name = true)
    (hnull : f.bytes.contains 0 = true) :
    processFile target outDir f = [.err ("Not a text file: " ++ f.name)] := by
  have hext : extLower f.name = ".txt" := by
    rw [hend]
    exact extLower_txt_accepted x (hend ▸ hacc)
  have hll : looksLikeText f.bytes = false := by
    unfold looksLikeText
    rw [hnull]
    rfl
  unfold processFile
  rw [hext]
  simp [convertOne, hll]

/-- C5 witness: a null byte in `b.txt` is rejected under an unrecognized
target value. -/
theorem spec_C5_null_byte_txt_rejected_witness :
    uploadAccepts "b.txt" = true ∧ [0, 104].contains 0 = true ∧
    processFile "weird" "/srv/converted" ⟨"b.txt", [0, 104], none, "", "", ""⟩ =
      [.err "Not a text file: b.txt"] :=
  ⟨by decide, by decide,
   spec_C5_null_byte_txt_rejected ⟨"b.txt", [0, 104], none, "", "", ""⟩ "weird"
     "/srv/converted" "b" rfl (by decide) (by decide)⟩

/-- C6: under target `txt` or `docx`, an uploaded `.pdf`-named file whose
first four bytes are not the `%PDF` signature records exactly
"Invalid PDF file: name"; one whose signature matches but whose extracted
text trims to empty records exactly the distinct
"No text extracted (likely scanned PDF): name"; and the two diagnostics are
different messages, never conflated. -/
theorem spec_C6_pdf_two_diagnostics (f : FileData) (target outDir x : String)
    (hend : f.name = x ++ ".pdf") (hacc : uploadAccepts f.name = true)
    (htgt : target = "txt" ∨ target = "docx") :
    (isPdfFile f.bytes = false →
      processFile target outDir f = [.err ("Invalid PDF file: " ++ f.name)]) ∧
    (isPdfFile f.bytes = true → jsTrim f.pdfText = "" →
      processFile target outDir f =
        [.err ("No text extracted (likely scanned PDF): " ++ f.name)]) ∧
    ("Invalid PDF file: " ++ f.name) ≠
      ("No text extracted (likely scanned PDF): " ++ f.name) := by
  have hext : extLower f.name = ".pdf" := by
    rw [hend]
    exact extLower_pdf_accepted x (hend ▸ hacc)
  have hne : ("Invalid PDF file: " ++ f.name) ≠
      ("No text extracted (likely scanned PDF): " ++ f.name) :=
    append_head_ne "Invalid PDF file: " "No text extracted (likely scanned PDF): "
      f.name f.name 'I' 'N' ("nvalid PDF file: ".data)
      ("o text extracted (likely scanned PDF): ".data) (by decide) (by decide) (by decide)
  unfold processFile
  rw [hext]
  rcases htgt with h | h <;> subst h <;>
    exact ⟨fun hpdf => by simp [convertOne, hpdf],
           fun hpdf htrim => by simp [convertOne, hpdf, htrim], hne⟩

/-- C6 witness: a `.pdf` upload with a bad signature, and one with a good
signature but whitespace-only extracted text, receive the two distinct
diagnostics. -/
theorem spec_C6_pdf_two_diagnostics_witness :
    isPdfFile [1, 2, 3, 4] = false ∧
    processFile "txt" "/srv/converted" ⟨"doc.pdf", [1, 2, 3, 4], none, "", "", ""⟩ =
      [.err "Invalid PDF file: doc.pdf"] ∧
    isPdfFile [37, 80, 68, 70] = true ∧
    processFile "txt" "/srv/converted" ⟨"scan.pdf", [37, 80, 68, 70], none, "  ", "", ""⟩ =
      [.err "No text extracted (likely scanned PDF): scan.pdf"] :=
  ⟨by decide,
   (spec_C6_pdf_two_diagnostics ⟨"doc.pdf", [1, 2, 3, 4], none, "", "", ""⟩ "txt"
     "/srv/converted" "doc" rfl (by decide) (Or.inl rfl)).1 (by decide),
   by decide,
   (spec_C6_pdf_two_diagnostics ⟨"scan.pdf", [37, 80, 68, 70], none, "  ", "", ""⟩ "txt"
     "/srv/converted" "scan" rfl (by decide) (Or.inl rfl)).2.1 (by decide) (by decide)⟩

/-- C7 counterexample: the claim states that a `.docx`-named upload
proceeds to conversion only if its detected binary MIME type resolves to
`application/zip` or the OOXML word-processing type, any other resolution
recording "Not a DOCX file" and skipping extraction.  The code's guard
(`server.js:220`) is `m && m !== zip && m !== ooxml`, so an *undetected*
MIME (`detectMime` returning `null`) also proceeds.  At this concrete input
— a `.docx` file whose MIME detection yields nothing — conversion proceeds
to extraction and succeeds, and no "Not a DOCX file" failure is recorded,
contradicting the claim as stated. -/
theorem spec_C7_counterexample :
    processFile "txt" "/srv/converted" ⟨"report.docx", [1, 2, 3], none, "", " hello ", ""⟩ =
      [.ok "/srv/converted/report.txt" "report.txt" (.txt "hello")] ∧
    Entry.err "Not a DOCX file: report.docx" ∉
      processFile "txt" "/srv/converted" ⟨"report.docx", [1, 2, 3], none, "", " hello ", ""⟩ :=
  ⟨by decide, by decide⟩

/-- C7 (amended): a `.docx`-named upload records the per-file failure
"Not a DOCX file" and skips extraction exactly when a MIME type *was*
detected and it is neither `application/zip` nor the OOXML word-processing
type; when detection yields nothing, or one of those two types, the file is
never recorded with that failure and proceeds. -/
theorem spec_C7_mime_gate_amended (f : FileData) (target outDir x : String)
    (hend : f.name = x ++ ".docx") (hacc : uploadAccepts f.name = true) :
    (∀ m, f.mime = some m → m ≠ zipMime → m ≠ ooxmlMime →
      processFile target outDir f = [.err ("Not a DOCX file: " ++ f.name)]) ∧
    ((f.mime = none ∨ f.mime = some zipMime ∨ f.mime = some ooxmlMime) →
      Entry.err ("Not a DOCX file: " ++ f.name) ∉ processFile target outDir f) := by
  have hext : extLower f.name = ".docx" := by
    rw [hend]
    exact extLower_docx_accepted x (hend ▸ hacc)
  unfold processFile
  rw [hext]
  constructor
  · intro m hm hz ho
    have hrej : mimeRejected f.mime = true := by
      rw [hm]
      simp [mimeRejected, hz, ho]
    simp [convertOne, hrej]
  · intro hm hmem
    have hrej : mimeRejected f.mime = false := by
      rcases hm with h | h | h <;> rw [h] <;> simp [mimeRejected]
    have hne : Entry.err ("Not a DOCX file: " ++ f.name) ≠
        Entry.err ("Unsupported target: " ++ target) := by
      intro h
      have h2 : "Not a DOCX file: " ++ f.name = "Unsupported target: " ++ target := by
        injection h
      exact append_head_ne "Not a DOCX file: " "Unsupported target: " f.name target
        'N' 'U' ("ot a DOCX file: ".data) ("nsupported target: ".data)
        (by decide) (by decide) (by decide) h2
    cases ht1 : (target == "txt") with
    | true => simp [convertOne, hrej, ht1] at hmem
    | false =>
      cases ht2 : (target == "docx") with
      | true => simp [convertOne, hrej, ht1, ht2] at hmem
      | false =>
        simp [convertOne, hrej, ht1, ht2] at hmem
        exact hne (by rw [hmem])

/-- C7 witness: a `.docx` upload detected as `image/png` is rejected, and
one detected as `application/zip` is never recorded with that failure. -/
theorem spec_C7_mime_gate_amended_witness :
    processFile "txt" "/srv/converted" ⟨"evil.docx", [1, 2], some "image/png", "", "x", ""⟩ =
      [.err "Not a DOCX file: evil.docx"] ∧
    Entry.err "Not a DOCX file: ok.docx" ∉
      processFile "txt" "/srv/converted" ⟨"ok.docx", [80, 75], some "application/zip", "", "x", ""⟩ :=
  ⟨(spec_C7_mime_gate_amended ⟨"evil.docx", [1, 2], some "image/png", "", "x", ""⟩ "txt"
     "/srv/converted" "evil" rfl (by decide)).1 "image/png" rfl (by decide) (by decide),
   (spec_C7_mime_gate_amended ⟨"ok.docx", [80, 75], some "application/zip", "", "x", ""⟩ "txt"
     "/srv/converted" "ok" rfl (by decide)).2 (Or.inr (Or.inl rfl))⟩

/-- C8: an accepted `.txt` upload (no null byte) converted with target
`txt` yields exactly one success whose written content is the UTF-8 decode
of the original file written back as UTF-8 text, verbatim — no trimming and
no normalization (`Written.txt f.utf8`, where `f.utf8` is the text
`fs.readFile(p, 'utf8')` yields). -/
theorem spec_C8_txt_roundtrip (f : FileData) (outDir x : String)
    (hend : f.name = x ++ ".txt") (hacc : uploadAccepts f.name = true)
    (hok : f.bytes.contains 0 = false) :
    processFile "txt" outDir f =
      [.ok (outDir ++ "/" ++ jsBasename f.name ".txt" ++ ".txt")
        (jsBasename f.name ".txt" ++ ".txt") (.txt f.utf8)] := by
  have hext : extLower f.name = ".txt" := by
    rw [hend]
    exact extLower_txt_accepted x (hend ▸ hacc)
  have hll : looksLikeText f.bytes = true := by
    unfold looksLikeText
    rw [hok]
    rfl
  unfold processFile
  rw [hext]
  simp [convertOne, hll]

/-- C8 witness: `n.txt` with content decoding to `"hi"` round-trips
verbatim. -/
theorem spec_C8_txt_roundtrip_witness :
    uploadAccepts "n.txt" = true ∧ [104, 105].contains 0 = false ∧
    processFile "txt" "/srv/converted" ⟨"n.txt", [104, 105], none, "", "", "hi"⟩ =
      [.ok "/srv/converted/n.txt" "n.txt" (.txt "hi")] :=
  ⟨by decide, by decide,
   spec_C8_txt_roundtrip ⟨"n.txt", [104, 105], none, "", "", "hi"⟩ "/srv/converted" "n"
     rfl (by decide) (by decide)⟩

/-- C9: on every exit path of the batch handler — single-file success,
archive success, all-failed (422) and internal fault (500, a file's
black-box processing throwing) — the event log contains a best-effort
unlink of every uploaded source file's path, including files that
contributed to a successful conversion (the `finally` block runs
unconditionally). -/
theorem spec_C9_sources_always_unlinked (ctx : Ctx) (raw : String)
    (files : List FileDataF) (f : FileDataF) (hf : f ∈ files) :
    Ev.unlink f.uploadPath ∈ (convertHandler ctx raw files).2 := by
  have hmem : Ev.unlink f.uploadPath ∈ finallyEvs files :=
    List.mem_map.mpr ⟨f, hf, rfl⟩
  unfold convertHandler
  by_cases he : files.isEmpty
  · rw [List.isEmpty_iff] at he
    subst he
    exact absurd hf (by simp)
  · rw [if_neg he]
    cases htry : tryOutputs (normTarget raw) ctx.outDir files with
    | error l => simp [List.mem_append, hmem]
    | ok outputs =>
      cases hok : okList outputs with
      | nil => simp [hok, List.mem_append, hmem]
      | cons o1 tail =>
        cases tail with
        | nil => simp [hok, List.mem_append, hmem]
        | cons o2 more => simp [hok, List.mem_append, hmem]

/-- C9 witness: a batch whose only file throws (500 path) still gets its
upload unlinked. -/
theorem spec_C9_sources_always_unlinked_witness :
    (⟨⟨"x.pdf", [1], none, "", "", ""⟩, "/srv/uploads/u9", true⟩ : FileDataF) ∈
      [(⟨⟨"x.pdf", [1], none, "", "", ""⟩, "/srv/uploads/u9", true⟩ : FileDataF)] ∧
    Ev.unlink "/srv/uploads/u9" ∈
      (convertHandler ⟨"/srv/converted", "d1", 111⟩ "txt"
        [⟨⟨"x.pdf", [1], none, "", "", ""⟩, "/srv/uploads/u9", true⟩]).2 :=
  ⟨by decide,
   spec_C9_sources_always_unlinked ⟨"/srv/converted", "d1", 111⟩ "txt"
     [⟨⟨"x.pdf", [1], none, "", "", ""⟩, "/srv/uploads/u9", true⟩]
     ⟨⟨"x.pdf", [1], none, "", "", ""⟩, "/srv/uploads/u9", true⟩ (by decide)⟩

/-- C10: two files of one batch whose base names (name minus the
classified extension) are equal and which both convert successfully under
the same target produce the same output path (derived solely from the base
name, no uniquifier), so the second write overwrites the first; the
resulting archive holds two entries with identical names and identical
content — that of the second file (`fileAt` reads the disk state at
archiving time). -/
theorem spec_C10_duplicate_base_overwrite (ctx : Ctx) (raw : String) (f1 f2 : FileDataF)
    (p1 n1 p2 n2 : String) (w1 w2 : Written)
    (hnt : ∀ f ∈ [f1, f2], f.throws = false)
    (h1 : processFile (normTarget raw) ctx.outDir f1.toFileData = [.ok p1 n1 w1])
    (h2 : processFile (normTarget raw) ctx.outDir f2.toFileData = [.ok p2 n2 w2])
    (hbase : jsBasename f1.name (extLower f1.name) = jsBasename f2.name (extLower f2.name)) :
    p1 = p2 ∧ n1 = n2 ∧
    (convertHandler ctx raw [f1, f2]).1 =
      (200, .zipOk ("converted-" ++ toString ctx.now ++ ".zip")
        [(n1, some w2), (n1, some w2)]
        (ctx.outDir ++ "/" ++ (ctx.downloadId ++ "-" ++ ("converted-" ++ toString ctx.now ++ ".zip")))
        ("/download/" ++ ctx.downloadId ++ "/" ++
          encodeURIComponent ("converted-" ++ toString ctx.now ++ ".zip"))) := by
  unfold processFile at h1 h2
  have d1 := convertOne_single_ok h1
  have d2 := convertOne_single_ok h2
  have hpn : p1 = p2 ∧ n1 = n2 := by
    rcases d1 with ⟨ht1, hn1, hp1⟩ | ⟨ht1, hn1, hp1⟩ <;>
      rcases d2 with ⟨ht2, hn2, hp2⟩ | ⟨ht2, hn2, hp2⟩
    · exact ⟨by rw [hp1, hp2, hbase], by rw [hn1, hn2, hbase]⟩
    · exact absurd (ht1.symm.trans ht2) (by decide)
    · exact absurd (ht1.symm.trans ht2) (by decide)
    · exact ⟨by rw [hp1, hp2, hbase], by rw [hn1, hn2, hbase]⟩
  obtain ⟨hp, hn⟩ := hpn
  rw [← hp, ← hn] at h2
  refine ⟨hp, hn, ?_⟩
  have hcoll : collectOutputs (normTarget raw) ctx.outDir [f1, f2] =
      [Entry.ok p1 n1 w1, Entry.ok p1 n1 w2] := by
    simp only [collectOutputs, processFile]
    rw [h1, h2]
    rfl
  have htry := tryOutputs_ok (normTarget raw) ctx.outDir [f1, f2] hnt
  unfold convertHandler
  rw [if_neg (by simp)]
  rw [htry, hcoll]
  simp [okList, okOf, fileAt]

/-- C10 witness: two `r.txt` uploads both succeed; the archive holds two
identical entries carrying the second file's content. -/
theorem spec_C10_duplicate_base_overwrite_witness :
    processFile (normTarget "txt") "/srv/converted"
        (FileDataF.mk ⟨"r.txt", [104], none, "", "", "one"⟩ "/srv/uploads/u1" false).toFileData =
      [.ok "/srv/converted/r.txt" "r.txt" (.txt "one")] ∧
    processFile (normTarget "txt") "/srv/converted"
        (FileDataF.mk ⟨"r.txt", [105], none, "", "", "two"⟩ "/srv/uploads/u2" false).toFileData =
      [.ok "/srv/converted/r.txt" "r.txt" (.txt "two")] ∧
    (convertHandler ⟨"/srv/converted", "d1", 111⟩ "txt"
        [⟨⟨"r.txt", [104], none, "", "", "one"⟩, "/srv/uploads/u1", false⟩,
         ⟨⟨"r.txt", [105], none, "", "", "two"⟩, "/srv/uploads/u2", false⟩]).1 =
      (200, .zipOk "converted-111.zip"
        [("r.txt", some (.txt "two")), ("r.txt", some (.txt "two"))]
        "/srv/converted/d1-converted-111.zip" "/download/d1/converted-111.zip") := by
  have h := spec_C10_duplicate_base_overwrite ⟨"/srv/converted", "d1", 111⟩ "txt"
    ⟨⟨"r.txt", [104], none, "", "", "one"⟩, "/srv/uploads/u1", false⟩
    ⟨⟨"r.txt", [105], none, "", "", "two"⟩, "/srv/uploads/u2", false⟩
    "/srv/converted/r.txt" "r.txt" "/srv/converted/r.txt" "r.txt" (.txt "one") (.txt "two")
    (by decide) (by decide) (by decide) (by decide)
  exact ⟨by decide, by decide, h.2.2⟩

end FFT
